import Mathlib

/-!
Verification of the Klondike solitaire engine in `klondike_solitaire.tsx`.

Shallow embedding of the game-state model and the three state transitions
(`handleStock`, `moveCards`, `handleCardClick`) of the solitaire part of the
repository, together with theorems settling the specification claims.

Conventions of the embedding:
* JS arrays become Lean `List`s with the same index order; `push` is
  `· ++ [c]`, `pop` is `List.dropLast` (reading the popped value is
  `List.getLast?` / `List.getLastD`), `slice(i)` is `List.drop i`,
  `splice(i)` is `List.take i`, and `splice(i, 1)` is
  `List.take i ++ List.drop (i+1)`.
* The source's `FoundationPile`/`TableauPile` records are one-field wrappers
  around a card array; they are flattened to `List Card`.
* Pile-id strings like `tableau-3` are modelled by `PileRef`: the prefix
  before the dash becomes a `PileKind` (with `PileKind.other` covering every
  string whose prefix is none of `waste`/`foundation`/`tableau`) and the
  parsed index becomes a `Nat`.  A missing or non-numeric index parses to
  `NaN` in JS, and `arr[NaN]` is `undefined` exactly like any out-of-range
  index, so out-of-range `Nat` indices cover those cases.
* A JS `TypeError` being thrown (reading `.cards`/`.rank` of `undefined`) is
  modelled by the transition functions returning `none`; `some s` is the
  state after the handler runs (equal to the input state when the handler
  returns without calling `setGame`).
-/

inductive Suit where
  | hearts | diamonds | clubs | spades
deriving DecidableEq, Repr

inductive Rank where
  | ace | r2 | r3 | r4 | r5 | r6 | r7 | r8 | r9 | r10 | jack | queen | king
deriving DecidableEq, Repr

structure Card where
  suit : Suit
  rank : Rank
  isFaceUp : Bool
deriving DecidableEq, Repr

/-- The `SUITS` constant: `["HEARTS", "DIAMONDS", "CLUBS", "SPADES"]`. -/
def SUITS : List Suit := [.hearts, .diamonds, .clubs, .spades]

/-- The `RANKS` constant: `["A", "2", ..., "10", "J", "Q", "K"]`. -/
def RANKS : List Rank :=
  [.ace, .r2, .r3, .r4, .r5, .r6, .r7, .r8, .r9, .r10, .jack, .queen, .king]

/-- Stand-in card for JS expressions that would read an `undefined` element
through the non-null assertion `deck.pop()!`; only ever used on branches the
theorems' hypotheses rule out. -/
def defaultCard : Card := { suit := .hearts, rank := .ace, isFaceUp := false }

def faceUp (c : Card) : Card := { c with isFaceUp := true }

def faceDown (c : Card) : Card := { c with isFaceUp := false }

/-- The `GameState` interface: stock, waste, four foundation piles, seven
tableau piles (pile wrappers flattened to card lists). -/
structure GameState where
  stock : List Card
  waste : List Card
  foundation : List (List Card)
  tableau : List (List Card)
deriving DecidableEq, Repr

/-- The function `createDeck`: for each suit in `SUITS` order, push each rank in `RANKS`
order, all face-down. -/
def createDeck : List Card :=
  SUITS.flatMap fun s => RANKS.map fun r => { suit := s, rank := r, isFaceUp := false }

/-- Reading `piles[i].cards` once `i` is known to be in range. -/
def getPile (piles : List (List α)) (i : Nat) : List α :=
  (piles.get? i).getD []

/-- The rule `canMoveToFoundation(card, pile)` from the source:
empty pile accepts exactly an ace; otherwise the suit must match the top
card's suit and `RANKS.indexOf(card.rank) === RANKS.indexOf(top.rank) + 1`. -/
def canMoveToFoundation (card : Card) (pile : List Card) : Bool :=
  if pile.isEmpty then card.rank == Rank.ace
  else
    let top := pile.getLastD defaultCard
    card.suit == top.suit && RANKS.indexOf card.rank == RANKS.indexOf top.rank + 1

/-- The rule `canMoveToTableau(card, pile)` from the source:
empty pile accepts exactly a king; otherwise the colors must differ and
`RANKS.indexOf(card.rank) === RANKS.indexOf(top.rank) - 1` (the JS `- 1` is
over signed integers, so it is transcribed as `+ 1` on the other side). -/
def canMoveToTableau (card : Card) (pile : List Card) : Bool :=
  if pile.isEmpty then card.rank == Rank.king
  else
    let top := pile.getLastD defaultCard
    let red := card.suit == Suit.hearts || card.suit == Suit.diamonds
    let topRed := top.suit == Suit.hearts || top.suit == Suit.diamonds
    red != topRed && RANKS.indexOf card.rank + 1 == RANKS.indexOf top.rank

/-- The function `handleStock`: empty stock recycles the waste (reversed, all face-down);
otherwise the top stock card is popped, flipped face-up, and pushed onto the
waste.  The function is total: no branch can throw. -/
def handleStock (s : GameState) : GameState :=
  if s.stock.isEmpty then
    { s with stock := s.waste.reverse.map faceDown, waste := [] }
  else
    { s with
      stock := s.stock.dropLast
      waste := s.waste ++ [faceUp (s.stock.getLastD defaultCard)] }

/-- One `deck.pop()!` + `tableau[j].cards.push({...c, isFaceUp: j === i})`
step of the deal loop in `initializeGame`. -/
def dealInto (acc : List Card × List (List Card)) (i j : Nat) :
    List Card × List (List Card) :=
  match acc with
  | (deck, tableau) =>
    (deck.dropLast, tableau.set j
      (getPile tableau j ++ [{ deck.getLastD defaultCard with isFaceUp := j == i }]))

/-- The function `initializeGame` minus the random shuffle: the shuffled deck is taken as
the argument (`shuffleDeck` draws from `Math.random`, so `newGame()` is
`initGame d` for a `d` that is some permutation of `createDeck`).  The deal
runs `for i in 0..6, for j in i..6: tableau[j].push(deck.pop() as face-up iff
j == i)`; the leftover deck is the stock. -/
def dealAll (deck : List Card) : List Card × List (List Card) :=
  (List.range 7).foldl
    (fun acc i => ((List.range 7).drop i).foldl (fun acc2 j => dealInto acc2 i j) acc)
    (deck, List.replicate 7 [])

def initGame (deck : List Card) : GameState :=
  let p := dealAll deck
  { stock := p.1, waste := [], foundation := List.replicate 4 [], tableau := p.2 }

/-- Pile-id kinds appearing before the dash in source/target strings.
`other` covers every string whose kind is none of the three (`stock`,
arbitrary junk, ...). -/
inductive PileKind where
  | waste | foundation | tableau | other
deriving DecidableEq, Repr

/-- A parsed pile-id string: kind plus numeric index. -/
structure PileRef where
  kind : PileKind
  idx : Nat
deriving DecidableEq, Repr

/-- JS `splice(i)` (remove from `i` to the end) on a copy, returning what is
left in the pile. -/
def spliceFrom (l : List Card) (i : Nat) : List Card := l.take i

/-- JS `splice(i, 1)` (remove the single element at `i`), returning what is left
in the pile.  Like JS `splice`, an out-of-range `i` removes nothing. -/
def splice1 (l : List Card) (i : Nat) : List Card := l.take i ++ l.drop (i + 1)

/-- The statement `const col = ng.tableau[srcIdx].cards; if (col.length)
col[col.length - 1].isFaceUp = true` — flip the last card face-up if the pile
is non-empty. -/
def flipLast (l : List Card) : List Card :=
  match l.getLast? with
  | none => l
  | some c => l.dropLast ++ [faceUp c]

/-- The function `moveCards(card, source, idx, target)` — the drag-and-drop move (the
`card` argument is unused by the source code, which recomputes the moved run
from `source` and `idx`).  Faithful transcription:
* unknown source kinds return early (silent no-op);
* reading a source or target pile at an out-of-range index throws (`none`);
* for waste/foundation sources the run is `[srcPile[srcPile.length - 1]]`,
  for tableau sources it is `srcPile.slice(idx)`; an `undefined` first card
  makes the legality check throw (`none`);
* validation uses `canMoveToFoundation` for foundation targets and
  `canMoveToTableau` for every other target kind (the code only tests
  `tgtType === "foundation"`), always against the pre-move target pile;
* on success the run is spliced out of the source (tableau sources flip the
  newly exposed last card), then the *first card only* is pushed for
  foundation targets while the whole run is pushed for tableau targets. -/
def moveCards? (g : GameState) (src : PileRef) (idx : Nat) (tgt : PileRef) :
    Option GameState :=
  match src.kind with
  | .other => some g
  | _ =>
    let srcPile? : Option (List Card) :=
      match src.kind with
      | .waste => some g.waste
      | .tableau => g.tableau.get? src.idx
      | .foundation => g.foundation.get? src.idx
      | .other => none
    match srcPile? with
    | none => none
    | some srcPile =>
      let moving : List Card :=
        if src.kind == .waste || src.kind == .foundation then
          match srcPile.getLast? with
          | some c => [c]
          | none => []
        else srcPile.drop idx
      let tgtPile? :=
        if tgt.kind == .foundation then g.foundation.get? tgt.idx
        else g.tableau.get? tgt.idx
      match tgtPile? with
      | none => none
      | some tgtPile =>
        match moving.head? with
        | none => none
        | some first =>
          let valid :=
            if tgt.kind == .foundation then canMoveToFoundation first tgtPile
            else canMoveToTableau first tgtPile
          if !valid then some g
          else
            let g1 :=
              match src.kind with
              | .waste => { g with waste := g.waste.dropLast }
              | .tableau =>
                { g with tableau := g.tableau.set src.idx (flipLast (spliceFrom srcPile idx)) }
              | .foundation =>
                { g with foundation := g.foundation.set src.idx srcPile.dropLast }
              | .other => g
            some (if tgt.kind == .foundation then
                    { g1 with foundation :=
                        g1.foundation.set tgt.idx (getPile g1.foundation tgt.idx ++ [first]) }
                  else
                    { g1 with tableau :=
                        g1.tableau.set tgt.idx (getPile g1.tableau tgt.idx ++ moving) })

/-- The `for (let i = 0; ...; i++) if (accepts(piles[i])) ...` search for the
first accepting pile, in index order. -/
def findFirstAcceptAux (p : List Card → Bool) : List (List Card) → Nat → Option Nat
  | [], _ => none
  | pile :: rest, i => if p pile then some i else findFirstAcceptAux p rest (i + 1)

def findFirstAccept (p : List Card → Bool) (piles : List (List Card)) : Option Nat :=
  findFirstAcceptAux p piles 0

/-- The function `handleCardClick(card, source, index)` — the click-to-auto-move handler.
Faithful transcription:
* the foundation loop runs only when the source kind is not `foundation`; on
  the first accepting foundation pile, a waste source pops its top while any
  other source splices the single card at `index` out of
  `tableau[srcIdx]` (throwing for out-of-range `srcIdx`) and flips the new
  last card; the *argument* card (`{...card}`) is pushed onto the foundation;
* otherwise the tableau loop runs; on the first accepting tableau pile, a
  waste source pops (pushing `[card]`), a tableau source splices from
  `index` and flips (pushing the original `slice(index)` all forced
  face-up), and any other source pops `foundation[srcIdx]` (throwing when
  out of range; a non-`foundation` unknown kind additionally pushes the
  original `tableau[srcIdx].slice(index)` face-up);
* with no accepting pile the handler falls through (no-op). -/
def handleCardClick? (g : GameState) (card : Card) (src : PileRef) (index : Nat) :
    Option GameState :=
  match (if src.kind == .foundation then none
         else findFirstAccept (fun pile => canMoveToFoundation card pile) g.foundation) with
  | some i =>
    if src.kind == .waste then
      some { g with
        waste := g.waste.dropLast
        foundation := g.foundation.set i (getPile g.foundation i ++ [card]) }
    else
      match g.tableau.get? src.idx with
      | none => none
      | some pile =>
        some { g with
          tableau := g.tableau.set src.idx (flipLast (splice1 pile index))
          foundation := g.foundation.set i (getPile g.foundation i ++ [card]) }
  | none =>
    match findFirstAccept (fun pile => canMoveToTableau card pile) g.tableau with
    | none => some g
    | some i =>
      match src.kind with
      | .waste =>
        some { g with
          waste := g.waste.dropLast
          tableau := g.tableau.set i (getPile g.tableau i ++ [card]) }
      | .tableau =>
        match g.tableau.get? src.idx with
        | none => none
        | some pile =>
          let t1 := g.tableau.set src.idx (flipLast (spliceFrom pile index))
          some { g with tableau := t1.set i (getPile t1 i ++ (pile.drop index).map faceUp) }
      | .foundation =>
        match g.foundation.get? src.idx with
        | none => none
        | some fp =>
          some { g with
            foundation := g.foundation.set src.idx fp.dropLast
            tableau := g.tableau.set i (getPile g.tableau i ++ [card]) }
      | .other =>
        match g.foundation.get? src.idx, g.tableau.get? src.idx with
        | some fp, some tp =>
          some { g with
            foundation := g.foundation.set src.idx fp.dropLast
            tableau := g.tableau.set i (getPile g.tableau i ++ (tp.drop index).map faceUp) }
        | _, _ => none

/-- All cards of a state, in pile order. -/
def allCards (g : GameState) : List Card :=
  g.stock ++ g.waste ++ g.foundation.flatten ++ g.tableau.flatten

def totalCards (g : GameState) : Nat := (allCards g).length

/-- How many cards of the given suit and rank the state holds (face state
ignored: a physical card's identity is its suit and rank). -/
def countRS (s : Suit) (r : Rank) (g : GameState) : Nat :=
  ((allCards g).filter fun c => c.suit == s && c.rank == r).length

/-!
A reachable state in which a card is destroyed:

`moveCards` validates only the first card of a dragged run against a
foundation target, splices the whole run out of the source pile, but pushes
only the first card — every other card of the run is destroyed.  The deck
below is a permutation of the fresh deck (so `initGame myDeck` is a possible
`newGame()` outcome), and the three moves are drags of face-up cards the UI
allows.
-/

/-- A shuffle outcome: `createDeck` with three transpositions, placing the
ace of spades at index 51 (dealt to tableau 0, face-up), the 2 of spades at
index 44 (dealt face-up on top of tableau 1), and the ace of hearts at index
38 (dealt face-up on top of tableau 2). -/
def myDeck : List Card :=
  let d := createDeck
  let d := (d.set 51 { suit := .spades, rank := .ace, isFaceUp := false }).set 39
    { suit := .spades, rank := .king, isFaceUp := false }
  let d := (d.set 44 { suit := .spades, rank := .r2, isFaceUp := false }).set 40
    { suit := .spades, rank := .r6, isFaceUp := false }
  (d.set 38 { suit := .hearts, rank := .ace, isFaceUp := false }).set 0
    { suit := .clubs, rank := .king, isFaceUp := false }

def bugState0 : GameState := initGame myDeck

/-- Drag the face-up ace of spades (tableau 0, index 0) onto empty
foundation 0. -/
def bugState1 : GameState :=
  (moveCards? bugState0 ⟨.tableau, 0⟩ 0 ⟨.foundation, 0⟩).getD bugState0

/-- Drag the face-up ace of hearts (tableau 2, index 2) onto the black
2 of spades on tableau 1. -/
def bugState2 : GameState :=
  (moveCards? bugState1 ⟨.tableau, 2⟩ 2 ⟨.tableau, 1⟩).getD bugState1

/-- Drag the run `[2♠, A♥]` starting at the face-up 2 of spades
(tableau 1, index 1) onto foundation 0, whose top is the ace of spades. -/
def bugState3 : GameState :=
  (moveCards? bugState2 ⟨.tableau, 1⟩ 1 ⟨.foundation, 0⟩).getD bugState2

/-- Claim C1 (code bug).  Card conservation fails on a reachable state: from
`initGame myDeck` (a legitimate `newGame()` deal, as `myDeck` is a
permutation of the fresh deck), three legal drags of face-up cards reach a
state holding only 51 cards — the ace of hearts, present exactly once after
the deal, is gone after the run `[2♠, A♥]` is dropped on a foundation,
because `moveCards` splices the whole run out of the tableau but pushes only
its first card. -/
theorem c1_card_conservation_violated :
    List.Perm myDeck createDeck
    ∧ (moveCards? bugState0 ⟨.tableau, 0⟩ 0 ⟨.foundation, 0⟩).isSome = true
    ∧ (moveCards? bugState1 ⟨.tableau, 2⟩ 2 ⟨.tableau, 1⟩).isSome = true
    ∧ (moveCards? bugState2 ⟨.tableau, 1⟩ 1 ⟨.foundation, 0⟩).isSome = true
    ∧ totalCards bugState0 = 52
    ∧ countRS Suit.hearts Rank.ace bugState0 = 1
    ∧ totalCards bugState3 = 51
    ∧ countRS Suit.hearts Rank.ace bugState3 = 0 := by
  refine ⟨by decide, by decide, by decide, by decide, by decide, by decide, by decide, by decide⟩

/-- Minimal state exhibiting the run-to-foundation card loss: tableau 0
holds the face-up run `[2♠, A♥]`, foundation 0 holds the ace of spades. -/
def runDropState : GameState :=
  { stock := []
    waste := []
    foundation :=
      [[{ suit := .spades, rank := .ace, isFaceUp := true }], [], [], []]
    tableau :=
      [[{ suit := .spades, rank := .r2, isFaceUp := true },
        { suit := .hearts, rank := .ace, isFaceUp := true }],
       [], [], [], [], [], []] }

/-- The state `moveCards` actually produces from `runDropState` when the
two-card run is dropped on foundation 0: the 2♠ lands on the foundation, the
A♥ is destroyed. -/
def runDropState' : GameState :=
  { stock := []
    waste := []
    foundation :=
      [[{ suit := .spades, rank := .ace, isFaceUp := true },
        { suit := .spades, rank := .r2, isFaceUp := true }], [], [], []]
    tableau := [[], [], [], [], [], [], []] }

/-- Claim C2 (code bug).  `moveRun` does not append the whole run to a
foundation target: dragging the two-card run `[2♠, A♥]` from tableau 0 onto
foundation 0 (legal for its first card, the 2♠) removes both cards from the
source but appends only the 2♠ — the ace of hearts is neither on the source
nor on the target afterwards, contradicting "appends the run to the target
in its current order". -/
theorem c2_run_to_foundation_drops_cards :
    moveCards? runDropState ⟨.tableau, 0⟩ 0 ⟨.foundation, 0⟩ = some runDropState'
    ∧ canMoveToFoundation { suit := .spades, rank := .r2, isFaceUp := true }
        (getPile runDropState.foundation 0) = true
    ∧ countRS Suit.hearts Rank.ace runDropState = 1
    ∧ countRS Suit.hearts Rank.ace runDropState' = 0 := by
  exact ⟨by decide, by decide, by decide, by decide⟩

/-- Claim C4 (confirmed).  `drawFromStock` on a non-empty stock pops the top
stock card, flips it face-up and pushes it onto the waste; on an empty stock
it reverses the waste into the stock with every card flipped face-down and
empties the waste.  Both branches (and in particular the empty-stock,
empty-waste case, where the second branch yields empty stock and waste)
always return a state: `handleStock` is a total function. -/
theorem c4_drawFromStock (s : GameState) :
    (∀ c, s.stock.getLast? = some c →
      handleStock s =
        { s with stock := s.stock.dropLast, waste := s.waste ++ [faceUp c] })
    ∧ (s.stock = [] →
      handleStock s =
        { s with stock := s.waste.reverse.map faceDown, waste := [] }) := by
  constructor
  · intro c h
    have hne : s.stock ≠ [] := by
      intro hnil
      rw [hnil] at h
      exact Option.noConfusion h
    have hemp : s.stock.isEmpty = false := by
      simpa [List.isEmpty_iff] using hne
    unfold handleStock
    rw [hemp]
    simp only [Bool.false_eq_true, if_false]
    rw [List.getLastD_eq_getLast? defaultCard s.stock, h]
    rfl
  · intro h
    unfold handleStock
    rw [h]
    rfl

/-- Witness for `c4_drawFromStock`: a one-card stock is popped onto the
waste, and the empty-stock branch of the same theorem recycles a concrete
waste. -/
theorem c4_drawFromStock_witness :
    handleStock
        { stock := [{ suit := .clubs, rank := .r5, isFaceUp := false }]
          waste := []
          foundation := [[], [], [], []]
          tableau := [[], [], [], [], [], [], []] } =
      { stock := []
        waste := [{ suit := .clubs, rank := .r5, isFaceUp := true }]
        foundation := [[], [], [], []]
        tableau := [[], [], [], [], [], [], []] } := by
  have h := (c4_drawFromStock
    { stock := [{ suit := .clubs, rank := .r5, isFaceUp := false }]
      waste := []
      foundation := [[], [], [], []]
      tableau := [[], [], [], [], [], [], []] }).1
    { suit := .clubs, rank := .r5, isFaceUp := false } (by decide)
  simpa using h

/-- Successor in the total rank order `A < 2 < ... < 10 < J < Q < K` of the
spec ("card's rank is exactly one above/below"). -/
def rankSucc : Rank → Option Rank
  | .ace => some .r2
  | .r2 => some .r3
  | .r3 => some .r4
  | .r4 => some .r5
  | .r5 => some .r6
  | .r6 => some .r7
  | .r7 => some .r8
  | .r8 => some .r9
  | .r9 => some .r10
  | .r10 => some .jack
  | .jack => some .queen
  | .queen => some .king
  | .king => none

/-- A card's derived color, as the spec words it: hearts/diamonds are red,
clubs/spades are black (here: `true` iff red). -/
def isRed (c : Card) : Bool := c.suit == Suit.hearts || c.suit == Suit.diamonds

/-- Spec-side foundation legality, written from the claim's words: an empty
pile accepts exactly an ace; a non-empty pile accepts exactly a same-suit
card whose rank is one above the top card's rank. -/
def FoundationLegal (card : Card) (pile : List Card) : Prop :=
  (pile = [] ∧ card.rank = Rank.ace)
  ∨ ∃ top, pile.getLast? = some top ∧ card.suit = top.suit
      ∧ rankSucc top.rank = some card.rank

/-- Spec-side tableau legality, written from the claim's words: an empty
pile accepts exactly a king; a non-empty pile accepts exactly an
opposite-color card whose rank is one below the top card's rank. -/
def TableauLegal (card : Card) (pile : List Card) : Prop :=
  (pile = [] ∧ card.rank = Rank.king)
  ∨ ∃ top, pile.getLast? = some top ∧ isRed card ≠ isRed top
      ∧ rankSucc card.rank = some top.rank

/-- The `indexOf`-arithmetic adjacency agrees with the rank-successor relation
(foundation direction: the moved card is one above the top card). -/
theorem indexOf_rank_adj (a b : Rank) :
    (RANKS.indexOf a == RANKS.indexOf b + 1) = true ↔ rankSucc b = some a := by
  cases a <;> cases b <;> decide

/-- The `indexOf`-arithmetic adjacency agrees with the rank-successor relation
(tableau direction: the moved card is one below the top card). -/
theorem indexOf_rank_adj' (a b : Rank) :
    (RANKS.indexOf a + 1 == RANKS.indexOf b) = true ↔ rankSucc a = some b := by
  cases a <;> cases b <;> decide

/-- Claim C9 (confirmed).  The two legality rules are exactly the spec's:
`canMoveToFoundation` accepts precisely an ace on an empty pile or a
same-suit rank-successor of the top card, and `canMoveToTableau` accepts
precisely a king on an empty pile or an opposite-color rank-predecessor of
the top card, under the rank order `A < 2 < ... < K` and red =
hearts/diamonds. -/
theorem c9_legality_rules (card : Card) (pile : List Card) :
    (canMoveToFoundation card pile = true ↔ FoundationLegal card pile)
    ∧ (canMoveToTableau card pile = true ↔ TableauLegal card pile) := by
  cases hp : pile.isEmpty
  case true =>
    have hnil : pile = [] := List.isEmpty_iff.mp hp
    subst hnil
    constructor
    · simp [canMoveToFoundation, FoundationLegal]
    · simp [canMoveToTableau, TableauLegal]
  case false =>
    have hne : pile ≠ [] := by simpa [List.isEmpty_iff] using hp
    obtain ⟨top, htop⟩ : ∃ top, pile.getLast? = some top := by
      cases h : pile.getLast? with
      | none => exact absurd (List.getLast?_eq_none_iff.mp h) hne
      | some c => exact ⟨c, rfl⟩
    have hlastD : pile.getLastD defaultCard = top := by
      rw [List.getLastD_eq_getLast? defaultCard pile, htop]
      rfl
    constructor
    · unfold canMoveToFoundation
      rw [hp, hlastD]
      simp only [Bool.false_eq_true, if_false, FoundationLegal, Bool.and_eq_true]
      constructor
      · rintro ⟨hsuit, hrank⟩
        exact Or.inr ⟨top, htop, by simpa using hsuit, (indexOf_rank_adj _ _).mp hrank⟩
      · rintro (⟨hnil, -⟩ | ⟨t, ht, hsuit, hrank⟩)
        · exact absurd hnil hne
        · rw [htop] at ht
          injection ht with hteq
          subst hteq
          exact ⟨by simpa using hsuit, (indexOf_rank_adj _ _).mpr hrank⟩
    · unfold canMoveToTableau
      rw [hp, hlastD]
      simp only [Bool.false_eq_true, if_false, TableauLegal, Bool.and_eq_true]
      constructor
      · rintro ⟨hcol, hrank⟩
        refine Or.inr ⟨top, htop, ?_, (indexOf_rank_adj' _ _).mp hrank⟩
        simpa [isRed, bne_iff_ne] using hcol
      · rintro (⟨hnil, -⟩ | ⟨t, ht, hcol, hrank⟩)
        · exact absurd hnil hne
        · rw [htop] at ht
          injection ht with hteq
          subst hteq
          exact ⟨by simpa [isRed, bne_iff_ne] using hcol, (indexOf_rank_adj' _ _).mpr hrank⟩

/-- Applying `n` successive `deck.pop()`s leaves `dropLastN n deck`. -/
def dropLastN : Nat → List Card → List Card
  | 0, l => l
  | n + 1, l => dropLastN n l.dropLast

theorem dropLastN_length (n : Nat) :
    ∀ l : List Card, (dropLastN n l).length = l.length - n := by
  induction n with
  | zero => intro l; rfl
  | succ n ih =>
    intro l
    show (dropLastN n l.dropLast).length = l.length - (n + 1)
    rw [ih l.dropLast, List.length_dropLast]
    omega

theorem dropLastN_sublist (n : Nat) :
    ∀ l : List Card, (dropLastN n l).Sublist l := by
  induction n with
  | zero => intro l; exact List.Sublist.refl l
  | succ n ih =>
    intro l
    exact (ih l.dropLast).trans (List.dropLast_sublist l)

theorem dropLastN_dropLastN (m n : Nat) :
    ∀ l : List Card, dropLastN m (dropLastN n l) = dropLastN (m + n) l := by
  induction n with
  | zero => intro l; rfl
  | succ n ih =>
    intro l
    show dropLastN m (dropLastN n l.dropLast) = dropLastN (m + n) l.dropLast
    exact ih l.dropLast

/-- The face-state shape of a pile list: just the `isFaceUp` booleans. -/
def shape (tb : List (List Card)) : List (List Bool) :=
  tb.map (List.map Card.isFaceUp)

theorem shape_getPile (t : List (List Card)) (j : Nat) :
    (getPile t j).map Card.isFaceUp = getPile (shape t) j := by
  unfold getPile shape
  rw [List.get?_map]
  cases t.get? j <;> rfl

theorem shape_dealInto (acc : List Card × List (List Card)) (i j : Nat) :
    shape (dealInto acc i j).2
      = (shape acc.2).set j (getPile (shape acc.2) j ++ [j == i]) := by
  obtain ⟨dk, tb⟩ := acc
  show shape (tb.set j (getPile tb j ++ [{ dk.getLastD defaultCard with isFaceUp := j == i }]))
      = (shape tb).set j (getPile (shape tb) j ++ [j == i])
  unfold shape
  rw [List.map_set, List.map_append, shape_getPile]
  rfl

theorem deck_dealInto (acc : List Card × List (List Card)) (i j : Nat) :
    (dealInto acc i j).1 = acc.1.dropLast := by
  obtain ⟨dk, tb⟩ := acc
  rfl

/-- One deal pass (`for j = i; j < 7; j++`) pops one card per visited pile
off the deck component. -/
theorem deck_pass (i : Nat) : ∀ (js : List Nat) (acc : List Card × List (List Card)),
    (js.foldl (fun acc2 j => dealInto acc2 i j) acc).1 = dropLastN js.length acc.1 := by
  intro js
  induction js with
  | nil => intro acc; rfl
  | cons j js ih =>
    intro acc
    show (js.foldl (fun acc2 j => dealInto acc2 i j) (dealInto acc i j)).1
        = dropLastN (js.length + 1) acc.1
    rw [ih (dealInto acc i j), deck_dealInto]
    rfl

/-- One deal pass transforms the tableau shape by appending `j == i` to each
visited pile's shape. -/
theorem shape_pass (i : Nat) : ∀ (js : List Nat) (acc : List Card × List (List Card)),
    shape ((js.foldl (fun acc2 j => dealInto acc2 i j) acc).2)
      = js.foldl (fun sh j => sh.set j (getPile sh j ++ [j == i])) (shape acc.2) := by
  intro js
  induction js with
  | nil => intro acc; rfl
  | cons j js ih =>
    intro acc
    show shape ((js.foldl (fun acc2 j => dealInto acc2 i j) (dealInto acc i j)).2)
        = js.foldl (fun sh j => sh.set j (getPile sh j ++ [j == i]))
            ((shape acc.2).set j (getPile (shape acc.2) j ++ [j == i]))
    rw [ih (dealInto acc i j), shape_dealInto]

theorem initGame_stock_eq (deck : List Card) :
    (initGame deck).stock = (dealAll deck).1 := by
  unfold initGame
  cases hd : dealAll deck
  rfl

theorem initGame_waste_eq (deck : List Card) : (initGame deck).waste = [] := by
  unfold initGame
  cases hd : dealAll deck
  rfl

theorem initGame_foundation_eq (deck : List Card) :
    (initGame deck).foundation = List.replicate 4 [] := by
  unfold initGame
  cases hd : dealAll deck
  rfl

theorem initGame_tableau_eq (deck : List Card) :
    (initGame deck).tableau = (dealAll deck).2 := by
  unfold initGame
  cases hd : dealAll deck
  rfl

/-- The deal pops exactly 28 cards (7 + 6 + ... + 1) off the deck; the stock
is what remains. -/
theorem dealAll_deck (deck : List Card) :
    (dealAll deck).1 = dropLastN 28 deck := by
  unfold dealAll
  rw [show List.range 7 = [0, 1, 2, 3, 4, 5, 6] from rfl]
  simp only [List.foldl_cons, List.foldl_nil]
  rw [show ([0, 1, 2, 3, 4, 5, 6] : List Nat).drop 0 = [0, 1, 2, 3, 4, 5, 6] from rfl,
      show ([0, 1, 2, 3, 4, 5, 6] : List Nat).drop 1 = [1, 2, 3, 4, 5, 6] from rfl,
      show ([0, 1, 2, 3, 4, 5, 6] : List Nat).drop 2 = [2, 3, 4, 5, 6] from rfl,
      show ([0, 1, 2, 3, 4, 5, 6] : List Nat).drop 3 = [3, 4, 5, 6] from rfl,
      show ([0, 1, 2, 3, 4, 5, 6] : List Nat).drop 4 = [4, 5, 6] from rfl,
      show ([0, 1, 2, 3, 4, 5, 6] : List Nat).drop 5 = [5, 6] from rfl,
      show ([0, 1, 2, 3, 4, 5, 6] : List Nat).drop 6 = [6] from rfl]
  rw [deck_pass 6, deck_pass 5, deck_pass 4, deck_pass 3, deck_pass 2, deck_pass 1,
      deck_pass 0]
  rw [dropLastN_dropLastN, dropLastN_dropLastN, dropLastN_dropLastN, dropLastN_dropLastN,
      dropLastN_dropLastN, dropLastN_dropLastN]
  norm_num

/-- The face-state shape of the dealt tableau: pile `j` holds `j + 1` cards,
all face-down except the last (top) one. -/
theorem dealAll_shape (deck : List Card) :
    shape (dealAll deck).2 =
      [[true], [false, true], [false, false, true], [false, false, false, true],
       [false, false, false, false, true], [false, false, false, false, false, true],
       [false, false, false, false, false, false, true]] := by
  unfold dealAll
  rw [show List.range 7 = [0, 1, 2, 3, 4, 5, 6] from rfl]
  simp only [List.foldl_cons, List.foldl_nil]
  rw [show ([0, 1, 2, 3, 4, 5, 6] : List Nat).drop 0 = [0, 1, 2, 3, 4, 5, 6] from rfl,
      show ([0, 1, 2, 3, 4, 5, 6] : List Nat).drop 1 = [1, 2, 3, 4, 5, 6] from rfl,
      show ([0, 1, 2, 3, 4, 5, 6] : List Nat).drop 2 = [2, 3, 4, 5, 6] from rfl,
      show ([0, 1, 2, 3, 4, 5, 6] : List Nat).drop 3 = [3, 4, 5, 6] from rfl,
      show ([0, 1, 2, 3, 4, 5, 6] : List Nat).drop 4 = [4, 5, 6] from rfl,
      show ([0, 1, 2, 3, 4, 5, 6] : List Nat).drop 5 = [5, 6] from rfl,
      show ([0, 1, 2, 3, 4, 5, 6] : List Nat).drop 6 = [6] from rfl]
  rw [shape_pass 6, shape_pass 5, shape_pass 4, shape_pass 3, shape_pass 2, shape_pass 1,
      shape_pass 0,
      show ((deck, List.replicate 7 ([] : List Card))).2 = List.replicate 7 [] from rfl]
  decide

theorem shape_map_length : ∀ t : List (List Card),
    (shape t).map List.length = t.map List.length := by
  intro t
  induction t with
  | nil => rfl
  | cons p t ih =>
    show (p.map Card.isFaceUp).length :: (shape t).map List.length
        = p.length :: t.map List.length
    rw [List.length_map, ih]

theorem length_getPile : ∀ (t : List (List Card)) (j : Nat),
    (getPile t j).length = (t.map List.length).getD j 0 := by
  intro t
  induction t with
  | nil => intro j; rfl
  | cons p t ih =>
    intro j
    cases j with
    | zero => rfl
    | succ j => exact ih j

/-- Claim C7 counterexample.  The claim says tableau pile `i` receives `7 − i`
cards; on the fresh (length-52, all-face-down) deck `createDeck`, pile 0
receives 1 card, not `7 − 0 = 7`. -/
theorem c7_counterexample :
    createDeck.length = 52
    ∧ (∀ c ∈ createDeck, c.isFaceUp = false)
    ∧ (getPile (initGame createDeck).tableau 0).length = 1
    ∧ (getPile (initGame createDeck).tableau 0).length ≠ 7 - 0 := by
  exact ⟨by decide, by decide, by decide, by decide⟩

/-- Claim C7 (corrected).  Amended claim: in the deal performed at game start,
tableau pile `i` receives `i + 1` cards (not `7 − i`) for `i = 0..6`, with
only the last card dealt to each pile face-up, and the remaining 24 cards
become the face-down stock. -/
theorem c7_amended (deck : List Card) (hlen : deck.length = 52)
    (hdown : ∀ c ∈ deck, c.isFaceUp = false) :
    (∀ j, j < 7 → (getPile (initGame deck).tableau j).length = j + 1)
    ∧ (initGame deck).tableau.map (List.map Card.isFaceUp) =
        [[true], [false, true], [false, false, true], [false, false, false, true],
         [false, false, false, false, true], [false, false, false, false, false, true],
         [false, false, false, false, false, false, true]]
    ∧ (initGame deck).stock.length = 24
    ∧ (∀ c ∈ (initGame deck).stock, c.isFaceUp = false) := by
  have hfaces : shape (initGame deck).tableau =
      [[true], [false, true], [false, false, true], [false, false, false, true],
       [false, false, false, false, true], [false, false, false, false, false, true],
       [false, false, false, false, false, false, true]] := by
    rw [initGame_tableau_eq]
    exact dealAll_shape deck
  have hsizes : (initGame deck).tableau.map List.length = [1, 2, 3, 4, 5, 6, 7] := by
    rw [← shape_map_length, hfaces]
    decide
  refine ⟨?_, hfaces, ?_, ?_⟩
  · intro j hj
    rw [length_getPile, hsizes]
    interval_cases j <;> rfl
  · rw [initGame_stock_eq, dealAll_deck, dropLastN_length, hlen]
  · intro c hc
    rw [initGame_stock_eq, dealAll_deck] at hc
    exact hdown c ((dropLastN_sublist 28 deck).subset hc)

/-- Witness for `c7_amended` at the concrete fresh deck. -/
theorem c7_amended_witness :
    (getPile (initGame createDeck).tableau 3).length = 3 + 1
    ∧ (initGame createDeck).stock.length = 24 :=
  ⟨(c7_amended createDeck (by decide) (by decide)).1 3 (by decide),
   (c7_amended createDeck (by decide) (by decide)).2.2.1⟩

/-- Claim C8 (confirmed).  Any `newGame()` deal — `initGame` of a permutation
of the fresh deck — has tableau pile sizes exactly `[1, 2, 3, 4, 5, 6, 7]`
in pile order 0..6, only the last (top) card of each pile face-up, and a
stock of exactly 24 cards. -/
theorem c8_deal_shape (deck : List Card) (hperm : List.Perm deck createDeck) :
    (initGame deck).tableau.map List.length = [1, 2, 3, 4, 5, 6, 7]
    ∧ (initGame deck).tableau.map (List.map Card.isFaceUp) =
        [[true], [false, true], [false, false, true], [false, false, false, true],
         [false, false, false, false, true], [false, false, false, false, false, true],
         [false, false, false, false, false, false, true]]
    ∧ (initGame deck).stock.length = 24 := by
  have hlen : deck.length = 52 := by
    rw [hperm.length_eq]
    decide
  have hfaces : shape (initGame deck).tableau =
      [[true], [false, true], [false, false, true], [false, false, false, true],
       [false, false, false, false, true], [false, false, false, false, false, true],
       [false, false, false, false, false, false, true]] := by
    rw [initGame_tableau_eq]
    exact dealAll_shape deck
  refine ⟨?_, hfaces, ?_⟩
  · rw [← shape_map_length, hfaces]
    decide
  · rw [initGame_stock_eq, dealAll_deck, dropLastN_length, hlen]

/-- Witness for `c8_deal_shape` at the identity permutation. -/
theorem c8_deal_shape_witness :
    (initGame createDeck).tableau.map List.length = [1, 2, 3, 4, 5, 6, 7]
    ∧ (initGame createDeck).stock.length = 24 :=
  ⟨(c8_deal_shape createDeck (List.Perm.refl createDeck)).1,
   (c8_deal_shape createDeck (List.Perm.refl createDeck)).2.2⟩

/-- The spec's "first pile in index order that accepts": pile `i` accepts and
every earlier pile rejects. -/
def FirstAccept (p : List Card → Bool) (piles : List (List Card)) (i : Nat) : Prop :=
  ∃ pile, piles.get? i = some pile ∧ p pile = true
    ∧ ∀ j, j < i → ∀ q, piles.get? j = some q → p q = false

theorem findFirstAcceptAux_spec (p : List Card → Bool) :
    ∀ (piles : List (List Card)) (k i : Nat),
      findFirstAcceptAux p piles k = some i ↔
        (k ≤ i ∧ ∃ pile, piles.get? (i - k) = some pile ∧ p pile = true
          ∧ ∀ j, j < i - k → ∀ q, piles.get? j = some q → p q = false) := by
  intro piles
  induction piles with
  | nil =>
    intro k i
    constructor
    · intro h
      exact Option.noConfusion h
    · rintro ⟨-, pile, hp, -⟩
      exact Option.noConfusion hp
  | cons pile rest ih =>
    intro k i
    show (if p pile then some k else findFirstAcceptAux p rest (k + 1)) = some i ↔ _
    by_cases hp : p pile = true
    · rw [hp]
      simp only [if_true]
      constructor
      · intro h
        injection h with h
        subst h
        refine ⟨Nat.le_refl k, pile, by rw [Nat.sub_self]; rfl, hp, ?_⟩
        intro j hj
        omega
      · rintro ⟨hki, q, hq, hpq, hbefore⟩
        rcases Nat.eq_or_lt_of_le hki with heq | hlt
        · rw [heq]
        · exfalso
          have h0 : (0 : Nat) < i - k := by omega
          exact absurd hp (by simpa using hbefore 0 h0 pile rfl)
    · rw [Bool.not_eq_true] at hp
      rw [hp]
      simp only [Bool.false_eq_true, if_false]
      rw [ih (k + 1) i]
      constructor
      · rintro ⟨hki, q, hq, hpq, hbefore⟩
        have hik : k < i := by omega
        refine ⟨Nat.le_of_lt hik, q, ?_, hpq, ?_⟩
        · have : i - k = (i - (k + 1)) + 1 := by omega
          rw [this]
          exact hq
        · intro j hj r hr
          cases j with
          | zero =>
            injection hr with hr
            rw [← hr, hp]
          | succ j =>
            have hj' : j < i - (k + 1) := by omega
            exact hbefore j hj' r hr
      · rintro ⟨hki, q, hq, hpq, hbefore⟩
        have hik : k < i := by
          rcases Nat.eq_or_lt_of_le hki with heq | hlt
          · exfalso
            rw [← heq, Nat.sub_self] at hq
            injection hq with hq
            rw [hq] at hp
            rw [hp] at hpq
            exact Bool.noConfusion hpq
          · exact hlt
        refine ⟨hik, q, ?_, hpq, ?_⟩
        · have : i - k = (i - (k + 1)) + 1 := by omega
          rw [this] at hq
          exact hq
        · intro j hj r hr
          have hj' : j + 1 < i - k := by omega
          exact hbefore (j + 1) hj' r hr

/-- The search `findFirstAccept` returns exactly the first accepting index. -/
theorem findFirstAccept_spec (p : List Card → Bool) (piles : List (List Card)) (i : Nat) :
    findFirstAccept p piles = some i ↔ FirstAccept p piles i := by
  unfold findFirstAccept FirstAccept
  rw [findFirstAcceptAux_spec p piles 0 i]
  simp [Nat.zero_le]

theorem findFirstAcceptAux_none (p : List Card → Bool) :
    ∀ (piles : List (List Card)) (k : Nat),
      findFirstAcceptAux p piles k = none ↔ ∀ q ∈ piles, p q = false := by
  intro piles
  induction piles with
  | nil => intro k; simp [findFirstAcceptAux]
  | cons pile rest ih =>
    intro k
    show (if p pile then some k else findFirstAcceptAux p rest (k + 1)) = none ↔ _
    by_cases hp : p pile = true
    · rw [hp]
      simp [hp]
    · rw [Bool.not_eq_true] at hp
      rw [hp]
      simp only [Bool.false_eq_true, if_false]
      rw [ih (k + 1)]
      simp [hp]

/-- The search `findFirstAccept` returns `none` exactly when every pile rejects. -/
theorem findFirstAccept_none (p : List Card → Bool) (piles : List (List Card)) :
    findFirstAccept p piles = none ↔ ∀ q ∈ piles, p q = false :=
  findFirstAcceptAux_none p piles 0

/-- A state refuting the claim that foundation-source clicks search the
foundation piles: foundation 0 = `[A♥]`, foundation 1 = `[2♥]`, all tableau
piles empty. -/
def fdnSkipState : GameState :=
  { stock := []
    waste := []
    foundation :=
      [[{ suit := .hearts, rank := .ace, isFaceUp := true }],
       [{ suit := .hearts, rank := .r2, isFaceUp := true }], [], []]
    tableau := [[], [], [], [], [], [], []] }

/-- Claim C3 counterexample.  Clicking the face-up 2♥ on top of foundation 1:
foundation 0 (top `A♥`) accepts it via `canMoveToFoundation`, yet the click
handler leaves the state unchanged, because for foundation sources the
foundation search is skipped entirely (and no tableau pile accepts a 2). -/
theorem c3_counterexample :
    canMoveToFoundation { suit := .hearts, rank := .r2, isFaceUp := true }
      (getPile fdnSkipState.foundation 0) = true
    ∧ handleCardClick? fdnSkipState { suit := .hearts, rank := .r2, isFaceUp := true }
        ⟨.foundation, 1⟩ 0 = some fdnSkipState := by
  exact ⟨by decide, by decide⟩

/-- Claim C3 (corrected).  Amended claim: for *waste and tableau* sources,
`autoMoveCard` searches the foundation piles in index order 0..3 for the
first accepting pile (moving the single clicked card there; a tableau source
loses exactly the card at the clicked position and its new top is flipped);
if none accepts, it searches the tableau piles in index order 0..6 for the
first accepting pile, moving the whole `slice(index)` suffix (forced
face-up) for tableau sources and the single card otherwise.  For
*foundation* sources the foundation search is skipped entirely — the
clicked card is auto-moved only through the tableau search, even when a
foundation pile would accept it.  If no destination accepts, the state is
unchanged. -/
theorem c3_amended (g : GameState) (card : Card) (index : Nat) :
    (∀ k i, FirstAccept (fun pile => canMoveToFoundation card pile) g.foundation i →
      handleCardClick? g card ⟨.waste, k⟩ index =
        some { g with waste := g.waste.dropLast,
                      foundation := g.foundation.set i (getPile g.foundation i ++ [card]) })
    ∧ (∀ s i pile, FirstAccept (fun pile => canMoveToFoundation card pile) g.foundation i →
        g.tableau.get? s = some pile →
        handleCardClick? g card ⟨.tableau, s⟩ index =
          some { g with tableau := g.tableau.set s (flipLast (splice1 pile index)),
                        foundation := g.foundation.set i (getPile g.foundation i ++ [card]) })
    ∧ (∀ s, handleCardClick? g card ⟨.foundation, s⟩ index =
        match findFirstAccept (fun pile => canMoveToTableau card pile) g.tableau with
        | none => some g
        | some i =>
          match g.foundation.get? s with
          | none => none
          | some fp =>
            some { g with foundation := g.foundation.set s fp.dropLast,
                          tableau := g.tableau.set i (getPile g.tableau i ++ [card]) })
    ∧ (∀ src, (∀ q ∈ g.foundation, canMoveToFoundation card q = false) →
        (∀ q ∈ g.tableau, canMoveToTableau card q = false) →
        handleCardClick? g card src index = some g)
    ∧ (∀ k i, (∀ q ∈ g.foundation, canMoveToFoundation card q = false) →
        FirstAccept (fun pile => canMoveToTableau card pile) g.tableau i →
        handleCardClick? g card ⟨.waste, k⟩ index =
          some { g with waste := g.waste.dropLast,
                        tableau := g.tableau.set i (getPile g.tableau i ++ [card]) })
    ∧ (∀ s i pile, (∀ q ∈ g.foundation, canMoveToFoundation card q = false) →
        FirstAccept (fun pile => canMoveToTableau card pile) g.tableau i →
        g.tableau.get? s = some pile →
        handleCardClick? g card ⟨.tableau, s⟩ index =
          some { g with
            tableau := List.set (g.tableau.set s (flipLast (spliceFrom pile index))) i
              (getPile (g.tableau.set s (flipLast (spliceFrom pile index))) i
                ++ (pile.drop index).map faceUp) }) := by
  refine ⟨?_, ?_, ?_, ?_, ?_, ?_⟩
  · intro k i hfa
    have hff : findFirstAccept (fun pile => canMoveToFoundation card pile) g.foundation
        = some i := (findFirstAccept_spec _ _ _).mpr hfa
    unfold handleCardClick?
    simp only [show ((⟨.waste, k⟩ : PileRef).kind == PileKind.foundation) = false from rfl,
               Bool.false_eq_true, if_false, hff,
               show ((⟨.waste, k⟩ : PileRef).kind == PileKind.waste) = true from rfl,
               if_true]
  · intro s i pile hfa hpile
    have hff : findFirstAccept (fun pile => canMoveToFoundation card pile) g.foundation
        = some i := (findFirstAccept_spec _ _ _).mpr hfa
    unfold handleCardClick?
    simp only [show ((⟨.tableau, s⟩ : PileRef).kind == PileKind.foundation) = false from rfl,
               Bool.false_eq_true, if_false, hff,
               show ((⟨.tableau, s⟩ : PileRef).kind == PileKind.waste) = false from rfl,
               show ((⟨.tableau, s⟩ : PileRef).idx) = s from rfl, hpile]
  · intro s
    unfold handleCardClick?
    simp only [show ((⟨.foundation, s⟩ : PileRef).kind == PileKind.foundation) = true from rfl,
               if_true,
               show ((⟨.foundation, s⟩ : PileRef).kind) = PileKind.foundation from rfl,
               show ((⟨.foundation, s⟩ : PileRef).idx) = s from rfl]
  · intro src hfn htn
    have hffn : findFirstAccept (fun pile => canMoveToFoundation card pile) g.foundation
        = none := (findFirstAccept_none _ _).mpr hfn
    have htnn : findFirstAccept (fun pile => canMoveToTableau card pile) g.tableau
        = none := (findFirstAccept_none _ _).mpr htn
    unfold handleCardClick?
    cases hb : (src.kind == PileKind.foundation) with
    | true => simp only [hb, if_true, htnn]
    | false => simp only [hb, Bool.false_eq_true, if_false, hffn, htnn]
  · intro k i hfn hta
    have hffn : findFirstAccept (fun pile => canMoveToFoundation card pile) g.foundation
        = none := (findFirstAccept_none _ _).mpr hfn
    have htf : findFirstAccept (fun pile => canMoveToTableau card pile) g.tableau
        = some i := (findFirstAccept_spec _ _ _).mpr hta
    unfold handleCardClick?
    simp only [show ((⟨.waste, k⟩ : PileRef).kind == PileKind.foundation) = false from rfl,
               Bool.false_eq_true, if_false, hffn, htf,
               show ((⟨.waste, k⟩ : PileRef).kind) = PileKind.waste from rfl]
  · intro s i pile hfn hta hpile
    have hffn : findFirstAccept (fun pile => canMoveToFoundation card pile) g.foundation
        = none := (findFirstAccept_none _ _).mpr hfn
    have htf : findFirstAccept (fun pile => canMoveToTableau card pile) g.tableau
        = some i := (findFirstAccept_spec _ _ _).mpr hta
    unfold handleCardClick?
    simp only [show ((⟨.tableau, s⟩ : PileRef).kind == PileKind.foundation) = false from rfl,
               Bool.false_eq_true, if_false, hffn, htf,
               show ((⟨.tableau, s⟩ : PileRef).kind) = PileKind.tableau from rfl,
               show ((⟨.tableau, s⟩ : PileRef).idx) = s from rfl, hpile]

/-- Witness for `c3_amended`: clicking the ace of diamonds on the waste puts
it on the first (empty) foundation. -/
theorem c3_amended_witness :
    handleCardClick?
        { stock := [], waste := [{ suit := .diamonds, rank := .ace, isFaceUp := true }],
          foundation := [[], [], [], []], tableau := [[], [], [], [], [], [], []] }
        { suit := .diamonds, rank := .ace, isFaceUp := true } ⟨.waste, 0⟩ 0 =
      some { stock := [], waste := [],
             foundation := [[{ suit := .diamonds, rank := .ace, isFaceUp := true }], [], [], []],
             tableau := [[], [], [], [], [], [], []] } := by
  have h := (c3_amended
    { stock := [], waste := [{ suit := .diamonds, rank := .ace, isFaceUp := true }],
      foundation := [[], [], [], []], tableau := [[], [], [], [], [], [], []] }
    { suit := .diamonds, rank := .ace, isFaceUp := true } 0).1 0 0
    ⟨[], rfl, by decide, fun j hj => absurd hj (by omega)⟩
  exact h.trans (by decide)

theorem dropLast_append_of_getLast? :
    ∀ (l : List Card) (c : Card), l.getLast? = some c → l.dropLast ++ [c] = l := by
  intro l
  induction l with
  | nil =>
    intro c h
    exact Option.noConfusion h
  | cons a l ih =>
    intro c h
    cases l with
    | nil =>
      have hca : c = a := by
        have ha : ([a] : List Card).getLast? = some a := rfl
        rw [ha] at h
        injection h with h
        exact h.symm
      rw [hca]
      rfl
    | cons b l' =>
      have h' : (b :: l').getLast? = some c := h
      show a :: ((b :: l').dropLast ++ [c]) = a :: (b :: l')
      rw [ih c h']

/-- Flipping the last card face-up is a no-op when it already is face-up. -/
theorem flipLast_of_faceUp (l : List Card) (c : Card)
    (h : l.getLast? = some c) (hup : c.isFaceUp = true) : flipLast l = l := by
  unfold flipLast
  rw [h]
  show l.dropLast ++ [faceUp c] = l
  have : faceUp c = c := by
    obtain ⟨s, r, f⟩ := c
    simp only [Card.isFaceUp] at hup
    rw [hup]
    rfl
  rw [this]
  exact dropLast_append_of_getLast? l c h

/-- Claim C10 (confirmed).  When the clicked face-up card sits in the middle of
a tableau pile with (face-up) cards above it and some foundation pile
accepts it, the handler removes exactly that single card — the cards above
it stay, shifted down one position, and the pile's unchanged top stays
face-up — and pushes the clicked card onto the first accepting foundation.
The whole-suffix move happens only in the tableau-destination branch. -/
theorem c10_mid_pile_foundation_move (g : GameState) (card : Card) (s index i : Nat)
    (pile : List Card)
    (hpile : g.tableau.get? s = some pile)
    (hcard : pile.get? index = some card)
    (habove : index + 1 < pile.length)
    (hfaceup : ∀ k c, index < k → pile.get? k = some c → c.isFaceUp = true)
    (hfa : FirstAccept (fun p => canMoveToFoundation card p) g.foundation i) :
    handleCardClick? g card ⟨.tableau, s⟩ index =
      some { g with
        tableau := g.tableau.set s (pile.take index ++ pile.drop (index + 1)),
        foundation := g.foundation.set i (getPile g.foundation i ++ [card]) } := by
  have hff : findFirstAccept (fun p => canMoveToFoundation card p) g.foundation = some i :=
    (findFirstAccept_spec _ _ _).mpr hfa
  have hdropne : pile.drop (index + 1) ≠ [] := by
    intro hnil
    have := List.drop_eq_nil_iff_le.mp hnil
    omega
  obtain ⟨top, htop⟩ : ∃ top, pile.getLast? = some top := by
    cases h : pile.getLast? with
    | none =>
      rw [List.getLast?_eq_none_iff] at h
      rw [h] at habove
      simp at habove
    | some c => exact ⟨c, rfl⟩
  have htopup : top.isFaceUp = true := by
    refine hfaceup (pile.length - 1) top (by omega) ?_
    rw [← List.getLast?_eq_get? pile]
    exact htop
  have hlast : (splice1 pile index).getLast? = some top := by
    unfold splice1
    rw [List.getLast?_append_of_ne_nil _ hdropne]
    rw [← List.getLast?_append_of_ne_nil (pile.take (index + 1)) hdropne,
        List.take_append_drop]
    exact htop
  have hflip : flipLast (splice1 pile index) = pile.take index ++ pile.drop (index + 1) :=
    flipLast_of_faceUp _ top hlast htopup
  unfold handleCardClick?
  simp only [show ((⟨.tableau, s⟩ : PileRef).kind == PileKind.foundation) = false from rfl,
             Bool.false_eq_true, if_false, hff,
             show ((⟨.tableau, s⟩ : PileRef).kind == PileKind.waste) = false from rfl,
             show ((⟨.tableau, s⟩ : PileRef).idx) = s from rfl, hpile, hflip]

/-- Witness for `c10_mid_pile_foundation_move`: clicking the 3♣ sitting under
the A♠ on tableau 0 moves just the 3♣ onto foundation 0 (top 2♣). -/
theorem c10_witness :
    handleCardClick?
        { stock := [], waste := [],
          foundation := [[{ suit := .clubs, rank := .ace, isFaceUp := true },
                          { suit := .clubs, rank := .r2, isFaceUp := true }], [], [], []],
          tableau := [[{ suit := .clubs, rank := .r3, isFaceUp := true },
                       { suit := .spades, rank := .ace, isFaceUp := true }],
                      [], [], [], [], [], []] }
        { suit := .clubs, rank := .r3, isFaceUp := true } ⟨.tableau, 0⟩ 0 =
      some { stock := [], waste := [],
             foundation := [[{ suit := .clubs, rank := .ace, isFaceUp := true },
                             { suit := .clubs, rank := .r2, isFaceUp := true },
                             { suit := .clubs, rank := .r3, isFaceUp := true }], [], [], []],
             tableau := [[{ suit := .spades, rank := .ace, isFaceUp := true }],
                         [], [], [], [], [], []] } := by
  have h := c10_mid_pile_foundation_move
    { stock := [], waste := [],
      foundation := [[{ suit := .clubs, rank := .ace, isFaceUp := true },
                      { suit := .clubs, rank := .r2, isFaceUp := true }], [], [], []],
      tableau := [[{ suit := .clubs, rank := .r3, isFaceUp := true },
                   { suit := .spades, rank := .ace, isFaceUp := true }],
                  [], [], [], [], [], []] }
    { suit := .clubs, rank := .r3, isFaceUp := true } 0 0 0
    [{ suit := .clubs, rank := .r3, isFaceUp := true },
     { suit := .spades, rank := .ace, isFaceUp := true }]
    rfl rfl (by decide)
    (by
      intro k c hk hc
      cases k with
      | zero => omega
      | succ k =>
        cases k with
        | zero =>
          injection hc with hc
          rw [← hc]
        | succ k => exact Option.noConfusion hc)
    ⟨[{ suit := .clubs, rank := .ace, isFaceUp := true },
      { suit := .clubs, rank := .r2, isFaceUp := true }], rfl, by decide,
     fun j hj => absurd hj (by omega)⟩
  exact h.trans (by decide)

theorem getLast?_isSome_of_ne_nil (l : List Card) (h : l ≠ []) :
    ∃ c, l.getLast? = some c := by
  cases hl : l.getLast? with
  | none => exact absurd (List.getLast?_eq_none_iff.mp hl) h
  | some c => exact ⟨c, rfl⟩

theorem get?_isSome_of_lt (t : List (List Card)) (i : Nat) (h : i < t.length) :
    ∃ p, t.get? i = some p :=
  ⟨t.get ⟨i, h⟩, List.get?_eq_get h⟩

theorem head?_isSome_of_ne_nil (l : List Card) (h : l ≠ []) :
    ∃ c, l.head? = some c := by
  cases l with
  | nil => exact absurd rfl h
  | cons a l => exact ⟨a, rfl⟩

def moveArgsOk (g : GameState) (src : PileRef) (idx : Nat) (tgt : PileRef) : Bool :=
  (match src.kind with
   | .waste => !g.waste.isEmpty
   | .tableau => decide (src.idx < g.tableau.length)
       && decide (idx < (getPile g.tableau src.idx).length)
   | .foundation => decide (src.idx < g.foundation.length)
       && !(getPile g.foundation src.idx).isEmpty
   | .other => true)
  && (if tgt.kind == .foundation then decide (tgt.idx < g.foundation.length)
      else decide (tgt.idx < g.tableau.length))

theorem move_total_of_argsOk (g : GameState) (src tgt : PileRef) (idx : Nat)
    (hok : moveArgsOk g src idx tgt = true) :
    (moveCards? g src idx tgt).isSome = true := by
  obtain ⟨skind, sidx⟩ := src
  obtain ⟨tkind, tidx⟩ := tgt
  unfold moveArgsOk at hok
  simp only [Bool.and_eq_true, decide_eq_true_eq] at hok
  obtain ⟨hsrc, htgt⟩ := hok
  obtain ⟨tp, htp⟩ : ∃ tp, (if ((⟨tkind, tidx⟩ : PileRef).kind == PileKind.foundation) = true
      then g.foundation.get? (⟨tkind, tidx⟩ : PileRef).idx
      else g.tableau.get? (⟨tkind, tidx⟩ : PileRef).idx) = some tp := by
    by_cases htk : tkind = PileKind.foundation
    · subst htk
      simp only [show ((⟨PileKind.foundation, tidx⟩ : PileRef).kind == PileKind.foundation) = true
          from rfl, if_true] at htgt ⊢
      simp only [show ((⟨PileKind.foundation, tidx⟩ : PileRef).kind == PileKind.foundation) = true
          from rfl, if_true, decide_eq_true_eq] at htgt
      exact get?_isSome_of_lt _ _ htgt
    · have hbf : ((⟨tkind, tidx⟩ : PileRef).kind == PileKind.foundation) = false := by
        simpa using htk
      rw [hbf] at htgt ⊢
      simp only [Bool.false_eq_true, if_false] at htgt ⊢
      simp only [decide_eq_true_eq] at htgt
      exact get?_isSome_of_lt _ _ htgt
  cases skind
  case other => rfl
  case waste =>
    have hsrc' : (!g.waste.isEmpty) = true := hsrc
    have hne : g.waste ≠ [] := by
      intro hnil
      rw [hnil] at hsrc'
      simp at hsrc'
    obtain ⟨c, hc⟩ := getLast?_isSome_of_ne_nil g.waste hne
    simp only [beq_iff_eq, List.get?_eq_getElem?] at htp
    unfold moveCards?
    simp [hc, htp, apply_ite Option.isSome]
  case tableau =>
    have hsrc' : (decide (sidx < g.tableau.length)
        && decide (idx < (getPile g.tableau sidx).length)) = true := hsrc
    simp only [Bool.and_eq_true, decide_eq_true_eq] at hsrc'
    obtain ⟨hsl, hsi⟩ := hsrc'
    obtain ⟨sp, hsp⟩ := get?_isSome_of_lt g.tableau sidx hsl
    have hsi' : idx < sp.length := by
      unfold getPile at hsi
      rw [hsp] at hsi
      simpa using hsi
    obtain ⟨c, hc⟩ := head?_isSome_of_ne_nil (sp.drop idx) (by
      intro hnil
      have := List.drop_eq_nil_iff.mp hnil
      omega)
    simp only [beq_iff_eq, List.get?_eq_getElem?] at htp
    simp only [List.get?_eq_getElem?] at hsp
    rw [List.head?_drop] at hc
    unfold moveCards?
    simp [hsp, hc, htp, apply_ite Option.isSome]
  case foundation =>
    have hsrc' : (decide (sidx < g.foundation.length)
        && !(getPile g.foundation sidx).isEmpty) = true := hsrc
    simp only [Bool.and_eq_true, decide_eq_true_eq] at hsrc'
    obtain ⟨hsl, hsi⟩ := hsrc'
    obtain ⟨fp, hfp⟩ := get?_isSome_of_lt g.foundation sidx hsl
    have hne : fp ≠ [] := by
      intro hnil
      unfold getPile at hsi
      rw [hfp, hnil] at hsi
      simp at hsi
    obtain ⟨c, hc⟩ := getLast?_isSome_of_ne_nil fp hne
    simp only [beq_iff_eq, List.get?_eq_getElem?] at htp
    simp only [List.get?_eq_getElem?] at hfp
    unfold moveCards?
    simp [hfp, hc, htp, apply_ite Option.isSome]

def clickArgsOk (g : GameState) (src : PileRef) : Bool :=
  match src.kind with
  | .waste => true
  | .tableau => decide (src.idx < g.tableau.length)
  | .foundation => decide (src.idx < g.foundation.length)
  | .other => decide (src.idx < g.foundation.length) && decide (src.idx < g.tableau.length)

theorem click_total_of_argsOk (g : GameState) (card : Card) (src : PileRef) (index : Nat)
    (hok : clickArgsOk g src = true) :
    (handleCardClick? g card src index).isSome = true := by
  obtain ⟨skind, sidx⟩ := src
  cases skind
  case waste =>
    unfold handleCardClick?
    cases h1 : findFirstAccept (fun pile => canMoveToFoundation card pile) g.foundation with
    | some i => simp [h1]
    | none =>
      cases h2 : findFirstAccept (fun pile => canMoveToTableau card pile) g.tableau with
      | some i => simp [h1, h2]
      | none => simp [h1, h2]
  case tableau =>
    have hok' : decide (sidx < g.tableau.length) = true := hok
    simp only [decide_eq_true_eq] at hok'
    obtain ⟨sp, hsp⟩ := get?_isSome_of_lt g.tableau sidx hok'
    simp only [List.get?_eq_getElem?] at hsp
    unfold handleCardClick?
    cases h1 : findFirstAccept (fun pile => canMoveToFoundation card pile) g.foundation with
    | some i => simp [h1, hsp]
    | none =>
      cases h2 : findFirstAccept (fun pile => canMoveToTableau card pile) g.tableau with
      | some i => simp [h1, h2, hsp]
      | none => simp [h1, h2]
  case foundation =>
    have hok' : decide (sidx < g.foundation.length) = true := hok
    simp only [decide_eq_true_eq] at hok'
    obtain ⟨fp, hfp⟩ := get?_isSome_of_lt g.foundation sidx hok'
    simp only [List.get?_eq_getElem?] at hfp
    unfold handleCardClick?
    cases h2 : findFirstAccept (fun pile => canMoveToTableau card pile) g.tableau with
    | some i => simp [h2, hfp]
    | none => simp [h2]
  case other =>
    have hok' : (decide (sidx < g.foundation.length) && decide (sidx < g.tableau.length))
        = true := hok
    simp only [Bool.and_eq_true, decide_eq_true_eq] at hok'
    obtain ⟨hf, ht⟩ := hok'
    obtain ⟨fp, hfp⟩ := get?_isSome_of_lt g.foundation sidx hf
    obtain ⟨tp, htp⟩ := get?_isSome_of_lt g.tableau sidx ht
    simp only [List.get?_eq_getElem?] at hfp htp
    unfold handleCardClick?
    cases h1 : findFirstAccept (fun pile => canMoveToFoundation card pile) g.foundation with
    | some i => simp [h1, htp]
    | none =>
      cases h2 : findFirstAccept (fun pile => canMoveToTableau card pile) g.tableau with
      | some i => simp [h1, h2, hfp, htp]
      | none => simp [h1, h2]

/-- Claim C5 counterexample.  `moveRun` is not total: with a tableau source
index outside `0..6`, reading `game.tableau[9].cards` throws a `TypeError`
(modelled by `none`) instead of returning a state. -/
theorem c5_counterexample :
    moveCards?
        { stock := [], waste := [], foundation := [[], [], [], []],
          tableau := [[], [], [], [], [], [], []] }
        ⟨.tableau, 9⟩ 0 ⟨.foundation, 0⟩ = none := by
  decide

/-- Claim C5 (corrected).  Amended claim: `drawFromStock` is total by
construction (`handleStock` returns a state on every input), and `moveRun`
and `autoMoveCard` return a state without throwing whenever the pile
references are well-formed — in-range indices, and for `moveRun` a
non-empty selected run (unknown source kinds are silent no-ops) — but an
out-of-range pile index makes them throw a `TypeError` instead of rejecting
the request as a no-op. -/
theorem c5_amended (g : GameState) (src tgt : PileRef) (idx index : Nat) (card : Card) :
    (moveArgsOk g src idx tgt = true → (moveCards? g src idx tgt).isSome = true)
    ∧ (clickArgsOk g src = true → (handleCardClick? g card src index).isSome = true) :=
  ⟨move_total_of_argsOk g src tgt idx, click_total_of_argsOk g card src index⟩

/-- Witness for `c5_amended`: a well-formed drag of the waste top onto
foundation 0 and a well-formed click both return a state. -/
theorem c5_amended_witness :
    (moveCards?
        { stock := [], waste := [{ suit := .spades, rank := .ace, isFaceUp := true }],
          foundation := [[], [], [], []], tableau := [[], [], [], [], [], [], []] }
        ⟨.waste, 0⟩ 0 ⟨.foundation, 0⟩).isSome = true
    ∧ (handleCardClick?
        { stock := [], waste := [{ suit := .spades, rank := .ace, isFaceUp := true }],
          foundation := [[], [], [], []], tableau := [[], [], [], [], [], [], []] }
        { suit := .spades, rank := .ace, isFaceUp := true } ⟨.waste, 0⟩ 0).isSome = true :=
  ⟨(c5_amended
      { stock := [], waste := [{ suit := .spades, rank := .ace, isFaceUp := true }],
        foundation := [[], [], [], []], tableau := [[], [], [], [], [], [], []] }
      ⟨.waste, 0⟩ ⟨.foundation, 0⟩ 0 0
      { suit := .spades, rank := .ace, isFaceUp := true }).1 (by decide),
   (c5_amended
      { stock := [], waste := [{ suit := .spades, rank := .ace, isFaceUp := true }],
        foundation := [[], [], [], []], tableau := [[], [], [], [], [], [], []] }
      ⟨.waste, 0⟩ ⟨.foundation, 0⟩ 0 0
      { suit := .spades, rank := .ace, isFaceUp := true }).2 (by decide)⟩

/-- Claim C6 counterexample.  A malformed request (unknown source pile kind)
and a well-formed but rules-illegal request produce the *same* observable
outcome — the handler returns the unchanged state in both cases, with no
`InvalidArgument`-like value anywhere in the interface — so callers cannot
tell "bad request" apart from "move rejected". -/
theorem c6_counterexample :
    moveCards?
        { stock := [], waste := [{ suit := .clubs, rank := .r5, isFaceUp := true }],
          foundation := [[], [], [], []], tableau := [[], [], [], [], [], [], []] }
        ⟨.other, 0⟩ 0 ⟨.foundation, 0⟩
      = some { stock := [], waste := [{ suit := .clubs, rank := .r5, isFaceUp := true }],
               foundation := [[], [], [], []], tableau := [[], [], [], [], [], [], []] }
    ∧ moveCards?
        { stock := [], waste := [{ suit := .clubs, rank := .r5, isFaceUp := true }],
          foundation := [[], [], [], []], tableau := [[], [], [], [], [], [], []] }
        ⟨.waste, 0⟩ 0 ⟨.foundation, 0⟩
      = some { stock := [], waste := [{ suit := .clubs, rank := .r5, isFaceUp := true }],
               foundation := [[], [], [], []], tableau := [[], [], [], [], [], [], []] } := by
  exact ⟨rfl, by decide⟩

/-- Claim C6 (corrected).  Amended claim: `moveRun` has no `InvalidArgument`
outcome.  A source pile id of unknown kind is silently ignored — the state
is returned unchanged, exactly like a rules-rejected move — and an
out-of-range source pile index throws a `TypeError` (modelled `none`)
rather than producing a distinguishable error value. -/
theorem c6_amended (g : GameState) (idx : Nat) (tgt : PileRef) :
    (∀ i, moveCards? g ⟨.other, i⟩ idx tgt = some g)
    ∧ (∀ si, g.tableau.length ≤ si → moveCards? g ⟨.tableau, si⟩ idx tgt = none) := by
  constructor
  · intro i
    rfl
  · intro si hsi
    have hnone : g.tableau.get? si = none := by
      rw [List.get?_eq_none]
      exact hsi
    simp only [List.get?_eq_getElem?] at hnone
    unfold moveCards?
    simp [hnone]

/-- Witness for `c6_amended`: the unknown-kind no-op and the out-of-range
throw at a concrete state. -/
theorem c6_amended_witness :
    moveCards?
        { stock := [], waste := [], foundation := [[], [], [], []],
          tableau := [[], [], [], [], [], [], []] }
        ⟨.other, 3⟩ 0 ⟨.foundation, 0⟩
      = some { stock := [], waste := [], foundation := [[], [], [], []],
               tableau := [[], [], [], [], [], [], []] }
    ∧ moveCards?
        { stock := [], waste := [], foundation := [[], [], [], []],
          tableau := [[], [], [], [], [], [], []] }
        ⟨.tableau, 9⟩ 0 ⟨.foundation, 0⟩ = none :=
  ⟨(c6_amended
      { stock := [], waste := [], foundation := [[], [], [], []],
        tableau := [[], [], [], [], [], [], []] } 0 ⟨.foundation, 0⟩).1 3,
   (c6_amended
      { stock := [], waste := [], foundation := [[], [], [], []],
        tableau := [[], [], [], [], [], [], []] } 0 ⟨.foundation, 0⟩).2 9 (by decide)⟩
